import Mathlib

/-!
Verification of the pack-allocation core of the gymshark repository
(`internal/allocator/allocator.go`) against its natural-language
specification.

The Go code is shallowly embedded: Go `int` becomes `Int` (overflow is
irrelevant at the quantities the spec discusses), Go `map[int]int` becomes
an association list `PackMap` with the lookup/insert/delete semantics of Go
maps, and the three nested loops of `CalculatePacks` become structurally
recursive loop functions (`calcInnerLoop`, `calcPacksLoop`,
`calcOuterLoop`) whose threaded state is exactly the set of Go variables
that are live across iterations (`currentResult`, `bestResult`,
`bestTotal`, `bestOverage`).  Go's multi-value return
`(map[int]int, int, error)` is kept as a triple with `Option` components.
Go's integer division truncates toward zero, which is `Int.tdiv`.
-/

/-- Go integer division: truncation toward zero, as in `a / b` in Go. -/
def goDiv (a b : Int) : Int := Int.tdiv a b

/-- The ceiling-division idiom `(a + b - 1) / b` used throughout
`allocator.go` (`minPacks`, `maxQty`, `smallerPacks`). -/
def goCeilDiv (a b : Int) : Int := goDiv (a + b - 1) b

/-- A Go `map[int]int`, represented as an association list.  Keys are kept
unique; insertion order is the order in which keys were first set, which
makes the embedding deterministic (the Go code only ranges over maps to
copy them, so iteration order never influences results). -/
abbrev PackMap : Type := List (Int × Int)

/-- The empty map (`make(map[int]int)`). -/
def mapEmpty : PackMap := []

/-- Go map read `m[k]`: the stored value, or 0 when the key is absent. -/
def mapGet (m : PackMap) (k : Int) : Int :=
  match m.find? (fun p => p.1 == k) with
  | some p => p.2
  | none => 0

/-- Go map write `m[k] = v`: update in place, or append a new key. -/
def mapSet (m : PackMap) (k v : Int) : PackMap :=
  match m with
  | [] => [(k, v)]
  | p :: rest => if p.1 = k then (k, v) :: rest else p :: mapSet rest k v

/-- Go `delete(m, k)`. -/
def mapDelete (m : PackMap) (k : Int) : PackMap :=
  m.filter (fun p => p.1 ≠ k)

/-- The positive-count restriction of a map: the final
`for k, v := range bestResult { if v > 0 { result[k] = v } }` copy. -/
def mapFilterPos (m : PackMap) : PackMap :=
  m.filter (fun p => 0 < p.2)

/-- The sum Σ size×count over a map: the number of items a mapping really ships. -/
def mapSum (m : PackMap) : Int :=
  m.foldl (fun acc p => acc + p.1 * p.2) 0

/-- The sum Σ count over a map: the number of packs a mapping uses. -/
def mapPackCount (m : PackMap) : Int :=
  m.foldl (fun acc p => acc + p.2) 0

/-- The descending loop `for q := m; q >= 0; q--` as the list of visited
values `[m, m-1, ..., 0]` (empty when `m < 0`). -/
def intRangeDown (m : Int) : List Int :=
  if 0 ≤ m then ((List.range (m.toNat + 1)).reverse).map Int.ofNat else []

/-- The error values `CalculatePacks` and `CalculatePacksOptimized` can
produce, by their `errors.New` message. -/
inductive AllocError where
  | invalidQuantity
  | noPackSizesConfigured
  | noValidCombination
deriving DecidableEq, Repr

/-- The Go error message carried by each error value. -/
def errMessage : AllocError → String
  | .invalidQuantity => "quantity must be greater than 0"
  | .noPackSizesConfigured => "no pack sizes configured"
  | .noValidCombination => "no valid pack combination found"

/-- The Go return triple `(map[int]int, int, error)`: a possibly-nil map, an
int, and a possibly-nil error. -/
abbrev GoTriple : Type := Option PackMap × Int × Option AllocError

/-- The behaviour of `storage.StoreAllocation`, abstracted: given the
quantity, mapping and total it was asked to record, it either succeeds or
returns an error (`true` = error).  `CalculatePacks` only logs this
outcome. -/
abbrev StoreFn : Type := Int → PackMap → Int → Bool

/-- The `if a.storage != nil { if err := a.storage.StoreAllocation(...) }`
call: performed only when storage is configured; its outcome is returned
to the caller of this helper and then discarded, as the Go code discards
it after logging. -/
def doStore (store : Option StoreFn) (q : Int) (m : PackMap) (t : Int) : Option Bool :=
  match store with
  | none => none
  | some f => some (f q m t)

/-- The `best*` variables of `CalculatePacks`: `bestResult`, `bestTotal`,
`bestOverage`. -/
structure Best where
  bestResult : PackMap
  bestTotal : Int
  bestOverage : Int
deriving DecidableEq

/-- The shared candidate test of `CalculatePacks`: record
`(currentResult, currentTotal)` as the new best when
`overage < bestOverage || (overage == bestOverage && currentTotal < bestTotal)`,
where `overage = currentTotal - orderQuantity`.  (In the `remaining <= 0`
branch the Go code writes the same overage as `-remaining`.) -/
def recordIfBetter (orderQuantity currentTotal : Int) (cur : PackMap) (best : Best) : Best :=
  let overage := currentTotal - orderQuantity
  if overage < best.bestOverage ∨ (overage = best.bestOverage ∧ currentTotal < best.bestTotal)
  then ⟨cur, currentTotal, overage⟩
  else best

/-- The inner `for _, smallerSize := range a.packSizes` loop of
`CalculatePacks` (lines 266-283): sizes ≥ the current outer size are
skipped; every smaller size is filled with `ceil(remaining/smallerSize)`
packs, written into `currentResult` and accumulated onto `currentTotal`
(the Go code never resets either between smaller sizes), and each
accumulated state is offered to the best-so-far test.  State:
`(currentResult, currentTotal, best)`. -/
def calcInnerLoop (orderQuantity size remaining : Int) :
    List Int → PackMap × Int × Best → PackMap × Int × Best
  | [], st => st
  | smallerSize :: rest, (cur, currentTotal, best) =>
    if size ≤ smallerSize then
      calcInnerLoop orderQuantity size remaining rest (cur, currentTotal, best)
    else
      let smallerPacks := goCeilDiv remaining smallerSize
      let cur2 := mapSet cur smallerSize smallerPacks
      let currentTotal2 := currentTotal + smallerPacks * smallerSize
      let best2 := recordIfBetter orderQuantity currentTotal2 cur2 best
      calcInnerLoop orderQuantity size remaining rest (cur2, currentTotal2, best2)

/-- The middle `for packs := maxPacks; packs >= 0; packs--` loop of
`CalculatePacks` (lines 246-284).  Each iteration overwrites
`currentResult[size]`, resets `currentTotal` to `packs*size` and
`remaining` to `orderQuantity - currentTotal`; when `remaining <= 0` the
candidate is offered directly, otherwise the inner fill loop runs.
`currentResult` is NOT re-created between iterations, so entries written
by the inner loop of one iteration are still present in the next — this
mirrors the Go code exactly.  State: `(currentResult, best)`. -/
def calcPacksLoop (packSizes : List Int) (orderQuantity size : Int) :
    List Int → PackMap × Best → PackMap × Best
  | [], st => st
  | packs :: restPacks, (cur, best) =>
    let cur1 := mapSet cur size packs
    let currentTotal := packs * size
    let remaining := orderQuantity - currentTotal
    if remaining ≤ 0 then
      let best1 := recordIfBetter orderQuantity currentTotal cur1 best
      calcPacksLoop packSizes orderQuantity size restPacks (cur1, best1)
    else
      let st2 := calcInnerLoop orderQuantity size remaining packSizes (cur1, currentTotal, best)
      calcPacksLoop packSizes orderQuantity size restPacks (st2.1, st2.2.2)

/-- The outer `for _, size := range a.packSizes` loop of `CalculatePacks`
(lines 239-285).  A fresh `currentResult` is created per size;
`maxPacks := minPacks[size] = ceil(orderQuantity/size)`. -/
def calcOuterLoop (packSizes : List Int) (orderQuantity : Int) :
    List Int → Best → Best
  | [], best => best
  | size :: restSizes, best =>
    let maxPacks := goCeilDiv orderQuantity size
    let st := calcPacksLoop packSizes orderQuantity size (intRangeDown maxPacks) (mapEmpty, best)
    calcOuterLoop packSizes orderQuantity restSizes st.2

/-- Embedding of `Allocator.CalculatePacks` (allocator.go lines 200-301), with the
allocator's `packSizes` field and its storage dependency as parameters.
Validation order, the small-order special case, the search loops, the
positive-count copy and the logged-and-ignored store call all follow the
source line by line. -/
def calculatePacks (store : Option StoreFn) (packSizes : List Int)
    (orderQuantity : Int) : GoTriple :=
  if orderQuantity ≤ 0 then
    (none, 0, some AllocError.invalidQuantity)
  else
    match packSizes with
    | [] => (none, 0, some AllocError.noPackSizesConfigured)
    | p :: ps =>
      let smallest := (p :: ps).getLast (by simp)
      if orderQuantity < smallest then
        let result := mapSet mapEmpty smallest 1
        let _stored := doStore store orderQuantity result smallest
        (some result, smallest, none)
      else
        let bestInit : Best := ⟨mapEmpty, 0, orderQuantity⟩
        let best := calcOuterLoop (p :: ps) orderQuantity (p :: ps) bestInit
        let result := mapFilterPos best.bestResult
        let _stored := doStore store orderQuantity result best.bestTotal
        (some result, best.bestTotal, none)

/-- Embedding of `NewAllocator` (allocator.go lines 28-36): copy the configured sizes and
sort them descending (`sort.Sort(sort.Reverse(sort.IntSlice(sizes)))`).
The descending-sorted permutation of a list of ints is unique, so insertion
sort is extensionally the same sort the Go standard library performs.  No
deduplication is performed. -/
def newAllocator (packSizes : List Int) : List Int :=
  List.insertionSort (fun a b => a ≥ b) packSizes

/-- The `best` struct of `CalculatePacksOptimized` / `findOptimal`. -/
structure OptBest where
  found : Bool
  packs : PackMap
  total : Int
  waste : Int
  packCount : Int

/-- Embedding of `Allocator.findOptimal` (allocator.go lines 85-120): recursive
backtracking over the catalog suffix starting at `index`.  The Go code
mutates one shared `current` map, but every call either returns without
touching it (when `total >= target`) or restores all keys at its own and
deeper indices before returning, so passing the map functionally is
equivalent. -/
def findOptimal (target : Int) (sizes : List Int) (current : PackMap)
    (total packCount : Int) (best : OptBest) : OptBest :=
  if target ≤ total then
    let waste := total - target
    if ¬ best.found = true ∨ waste < best.waste ∨
        (waste = best.waste ∧ packCount < best.packCount) then
      ⟨true, current, total, waste, packCount⟩
    else best
  else
    match sizes with
    | [] => best
    | size :: rest =>
      let maxQty := goCeilDiv (target - total) size
      (intRangeDown maxQty).foldl
        (fun b q =>
          let current2 := if 0 < q then mapSet current size q else mapDelete current size
          findOptimal target rest current2 (total + q * size) (packCount + q) b)
        best
termination_by sizes.length
decreasing_by simp_wf

/-- The outcome of `CalculatePacksOptimized`: either a normal Go return
triple, or the runtime panic raised by the out-of-bounds index access
`a.packSizes[0]`. -/
inductive OptOutcome where
  | ret (packs : Option PackMap) (total : Int) (err : Option AllocError)
  | panicIndexOutOfBounds
deriving DecidableEq

/-- Abstraction of `GetAllocationByQuantity`: `some` exactly when the Go call
returns a nil error and a non-nil cached allocation. -/
abbrev CacheFn : Type := Int → Option (PackMap × Int)

/-- The guarded cache probe `if a.storage != nil { if cached, err := ...;
err == nil && cached != nil { ... } }`: a hit requires storage to be
configured and the lookup to produce a value. -/
def cacheLookup (storage : Option CacheFn) (q : Int) : Option (PackMap × Int) :=
  match storage with
  | none => none
  | some g => g q

/-- Embedding of `Allocator.CalculatePacksOptimized` (allocator.go lines 41-81).  After
the quantity check and the cache probe the code unconditionally reads
`a.packSizes[0]`; on an empty catalog that access is out of bounds and the
Go runtime panics, which the embedding records as
`OptOutcome.panicIndexOutOfBounds`. -/
def calculatePacksOptimized (packSizes : List Int) (storage : Option CacheFn)
    (store : Option StoreFn) (quantity : Int) : OptOutcome :=
  if quantity ≤ 0 then
    .ret none 0 (some AllocError.invalidQuantity)
  else
    match cacheLookup storage quantity with
    | some cached => .ret (some cached.1) cached.2 none
    | none =>
      match packSizes with
      | [] => .panicIndexOutOfBounds
      | maxPackSize :: _ =>
        let maxPossibleWaste := maxPackSize * 1000000
        let bestInit : OptBest := ⟨false, mapEmpty, 0, maxPossibleWaste, 0⟩
        let best := findOptimal quantity packSizes mapEmpty 0 0 bestInit
        if best.found then
          let _stored := doStore store quantity best.packs best.total
          .ret (some best.packs) best.total none
        else
          .ret none 0 (some AllocError.noValidCombination)

/-- A non-negative multiplicity vector over the catalog's sizes, given as a
mapping: every key is a catalog size, every count is non-negative, and no
key repeats.  This is the spec-side notion of a feasible combination. -/
def IsCombo (sizes : List Int) (v : PackMap) : Prop :=
  (∀ p ∈ v, p.1 ∈ sizes ∧ 0 ≤ p.2) ∧ (v.map Prod.fst).Nodup

instance (sizes : List Int) (v : PackMap) : Decidable (IsCombo sizes v) := by
  unfold IsCombo; infer_instance

/-! ## Helper lemmas -/

lemma isTotal_ge_int : IsTotal Int (fun a b => a ≥ b) := ⟨fun a b => le_total b a⟩

lemma isTrans_ge_int : IsTrans Int (fun a b => a ≥ b) := ⟨fun _ _ _ h1 h2 => le_trans h2 h1⟩

/-! ## Claim theorems -/

/-- Claim C6: for every quantity ≤ 0 and every catalog (the empty one
included), `CalculatePacks` fails with the InvalidQuantity error, whose
message is "quantity must be greater than 0", returning a nil map and
total 0. -/
theorem claimC6_nonpositive_quantity_rejected (store : Option StoreFn)
    (packSizes : List Int) (q : Int) (hq : q ≤ 0) :
    calculatePacks store packSizes q = (none, 0, some AllocError.invalidQuantity) ∧
    errMessage AllocError.invalidQuantity = "quantity must be greater than 0" := by
  refine ⟨?_, rfl⟩
  unfold calculatePacks
  rw [if_pos hq]

/-- Witness for C6 at quantity 0 with the empty catalog. -/
theorem claimC6_witness :
    (0 : Int) ≤ 0 ∧
    calculatePacks none [] 0 = (none, 0, some AllocError.invalidQuantity) ∧
    errMessage AllocError.invalidQuantity = "quantity must be greater than 0" :=
  ⟨le_refl 0, claimC6_nonpositive_quantity_rejected none [] 0 (le_refl 0)⟩

/-- Claim C7: for every quantity > 0, `CalculatePacks` on an empty catalog
fails with the NoPackSizesConfigured error, whose message is
"no pack sizes configured", returning a nil map and total 0; that error is
a different value from InvalidQuantity. -/
theorem claimC7_empty_catalog_rejected (store : Option StoreFn) (q : Int)
    (hq : 0 < q) :
    calculatePacks store [] q = (none, 0, some AllocError.noPackSizesConfigured) ∧
    errMessage AllocError.noPackSizesConfigured = "no pack sizes configured" ∧
    AllocError.noPackSizesConfigured ≠ AllocError.invalidQuantity := by
  refine ⟨?_, rfl, by decide⟩
  unfold calculatePacks
  rw [if_neg (by omega)]

/-- Witness for C7 at quantity 1. -/
theorem claimC7_witness :
    (0 : Int) < 1 ∧
    calculatePacks none [] 1 = (none, 0, some AllocError.noPackSizesConfigured) ∧
    errMessage AllocError.noPackSizesConfigured = "no pack sizes configured" ∧
    AllocError.noPackSizesConfigured ≠ AllocError.invalidQuantity :=
  ⟨by decide, claimC7_empty_catalog_rejected none 1 (by decide)⟩

/-- Claim C9: the outcome of `StoreAllocation` never changes the result of
`CalculatePacks`: with any configured storage behaviour (erroring or not)
the returned triple is the one returned with no storage at all. -/
theorem claimC9_store_failure_never_changes_result (f : StoreFn)
    (packSizes : List Int) (q : Int) :
    calculatePacks (some f) packSizes q = calculatePacks none packSizes q := rfl

/-- Claim C2 (refuting instance): for the catalog `[11, 7, 5]` and quantity
23, `CalculatePacks` returns Total 24, yet the multiplicity vector
`{11:1, 7:1, 5:1}` over the catalog totals 23, which lies in `[23, 24)` —
the returned Total is not the minimal achievable total ≥ quantity. -/
theorem claimC2_minimal_total_violated :
    calculatePacks none [11, 7, 5] 23 = (some [(7, 2), (5, 2)], 24, none) ∧
    IsCombo [11, 7, 5] [(11, 1), (7, 1), (5, 1)] ∧
    mapSum [(11, 1), (7, 1), (5, 1)] = 23 ∧
    (23 : Int) ≤ 23 ∧ (23 : Int) < 24 := by decide

set_option maxRecDepth 40000 in
/-- Claim C3 (refuting instance): for the catalog `[53, 31, 23]` and
quantity 500 (the repository's own unit-test case, which expects
`{53:9, 23:1}`), `CalculatePacks` returns the mapping
`{53:3, 31:11, 23:13}` with Total 500, using 27 packs, while the vector
`{53:9, 23:1}` also achieves total 500 with only 10 packs. -/
theorem claimC3_minimal_pack_count_violated :
    calculatePacks none [53, 31, 23] 500 =
      (some [(53, 3), (31, 11), (23, 13)], 500, none) ∧
    IsCombo [53, 31, 23] [(53, 9), (23, 1)] ∧
    mapSum [(53, 9), (23, 1)] = 500 ∧
    mapPackCount [(53, 9), (23, 1)] = 10 ∧
    mapPackCount [(53, 3), (31, 11), (23, 13)] = 27 ∧
    (10 : Int) < 27 := by decide

set_option maxRecDepth 40000 in
/-- Claim C4 (refuting instance): for the catalog built from
`{250, 500, 1000, 2000, 5000}` and quantity 12001, `CalculatePacks`
returns `{500:24, 250:1}` with Total 12250 — the Total of the spec's
scenario, but not its mapping `{5000:2, 2000:1, 250:1}` (the returned
mapping contains no 5000-pack at all, though that mapping too sums to
12250). -/
theorem claimC4_scenario_12001 :
    calculatePacks none (newAllocator [250, 500, 1000, 2000, 5000]) 12001 =
      (some [(500, 24), (250, 1)], 12250, none) ∧
    mapGet [(500, 24), (250, 1)] 5000 = 0 ∧
    mapSum [(5000, 2), (2000, 1), (250, 1)] = 12250 := by decide

/-- Claim C5 (refuting instance): for the catalog `[5, 3, 2]` and quantity
11, `CalculatePacks` returns the mapping `{5:1, 3:2, 2:1}` together with
Total 11, but the mapping's own Σ size×count is 13 — the returned Total
and mapping are not mutually consistent. -/
theorem claimC5_consistency_violated :
    calculatePacks none [5, 3, 2] 11 = (some [(5, 1), (3, 2), (2, 1)], 11, none) ∧
    mapSum [(5, 1), (3, 2), (2, 1)] = 13 ∧
    (13 : Int) ≠ 11 := by decide

/-- Claim C8 (refuting instance): `NewAllocator` applied to `[5, 5]` keeps
both copies of the duplicate size — the output is not duplicate-free. -/
theorem claimC8_counterexample :
    newAllocator [5, 5] = [5, 5] ∧ ¬ (newAllocator [5, 5]).Nodup := by decide

/-- Claim C8 as amended: `NewAllocator` sorts the configured sizes in
descending order, and its output is a permutation of its input — duplicate
entries are preserved, not collapsed. -/
theorem claimC8_amended_sorted_descending_perm (l : List Int) :
    List.Sorted (fun a b => a ≥ b) (newAllocator l) ∧ (newAllocator l).Perm l :=
  haveI := isTotal_ge_int
  haveI := isTrans_ge_int
  ⟨List.sorted_insertionSort _ l, List.perm_insertionSort _ l⟩

/-- Claim C10: `CalculatePacksOptimized` never validates the catalog: for
any quantity > 0 with no cached result, on an empty catalog its evaluation
reaches the out-of-bounds access `a.packSizes[0]` (a runtime panic); and
the only error values it can ever return are InvalidQuantity and the
"no valid pack combination found" error — never NoPackSizesConfigured. -/
theorem claimC10_optimized_skips_catalog_validation :
    (∀ (g : Option CacheFn) (store : Option StoreFn) (q : Int),
        0 < q → cacheLookup g q = none →
        calculatePacksOptimized [] g store q = OptOutcome.panicIndexOutOfBounds) ∧
    (∀ (sizes : List Int) (g : Option CacheFn) (store : Option StoreFn)
        (q : Int) (e : AllocError),
        calculatePacksOptimized sizes g store q = OptOutcome.ret none 0 (some e) →
        e = AllocError.invalidQuantity ∨ e = AllocError.noValidCombination) := by
  constructor
  · intro g store q hq hmiss
    unfold calculatePacksOptimized
    rw [if_neg (by omega), hmiss]
  · intro sizes g store q e h
    unfold calculatePacksOptimized at h
    split at h
    · injection h with h1 h2 h3
      injection h3 with h4
      exact Or.inl h4.symm
    · split at h
      · injection h with h1 h2 h3
        exact Option.noConfusion h1
      · split at h
        · exact OptOutcome.noConfusion h
        · dsimp only at h
          split at h
          · injection h with h1 h2 h3
            exact Option.noConfusion h1
          · injection h with h1 h2 h3
            injection h3 with h4
            exact Or.inr h4.symm

/-- Witness for C10: on the empty catalog with no storage, quantity 1
reaches the panic; and the quantity-0 error return is InvalidQuantity. -/
theorem claimC10_witness :
    ((0 : Int) < 1 ∧ cacheLookup none 1 = none ∧
      calculatePacksOptimized [] none none 1 = OptOutcome.panicIndexOutOfBounds) ∧
    (AllocError.invalidQuantity = AllocError.invalidQuantity ∨
      AllocError.invalidQuantity = AllocError.noValidCombination) :=
  ⟨⟨by decide, rfl,
      claimC10_optimized_skips_catalog_validation.1 none none 1 (by decide) rfl⟩,
    claimC10_optimized_skips_catalog_validation.2 [] none none 0
      AllocError.invalidQuantity rfl⟩

/-! ## Lemmas toward claim C1

The returned total is the `bestTotal` of the final `best` state.  Every
recorded candidate has `currentTotal ≥ orderQuantity`, and the first
`packs = maxPacks` iteration for any size `s ≤ orderQuantity` is certain
to be recorded when nothing has been recorded yet; since the smallest
(last) catalog size satisfies `s ≤ orderQuantity` in the main branch,
the final best is always a recorded candidate. -/

lemma goCeilDiv_lower (r t : Int) (hr : 0 < r) (ht : 0 < t) :
    r ≤ goCeilDiv r t * t := by
  have heq : goCeilDiv r t = (r + t - 1) / t := by
    unfold goCeilDiv goDiv
    exact Int.tdiv_eq_ediv (by omega) (le_of_lt ht)
  have hdm := Int.ediv_add_emod (r + t - 1) t
  have hm0 : 0 ≤ (r + t - 1) % t := Int.emod_nonneg _ (by omega)
  have hmt : (r + t - 1) % t < t := Int.emod_lt_of_pos _ ht
  have hmul : goCeilDiv r t * t = t * ((r + t - 1) / t) := by rw [heq, mul_comm]
  rw [hmul]
  linarith

lemma goCeilDiv_upper (r t : Int) (hr : 0 < r) (ht : 0 < t) :
    goCeilDiv r t * t < r + t := by
  have heq : goCeilDiv r t = (r + t - 1) / t := by
    unfold goCeilDiv goDiv
    exact Int.tdiv_eq_ediv (by omega) (le_of_lt ht)
  have hdm := Int.ediv_add_emod (r + t - 1) t
  have hm0 : 0 ≤ (r + t - 1) % t := Int.emod_nonneg _ (by omega)
  have hmul : goCeilDiv r t * t = t * ((r + t - 1) / t) := by rw [heq, mul_comm]
  rw [hmul]
  linarith

lemma goCeilDiv_pos (r t : Int) (hr : 0 < r) (ht : 0 < t) :
    0 < goCeilDiv r t := by
  by_contra h
  push_neg at h
  have h2 : goCeilDiv r t * t ≤ 0 := mul_nonpos_iff.mpr (Or.inr ⟨h, le_of_lt ht⟩)
  have h3 := goCeilDiv_lower r t hr ht
  omega

lemma intRangeDown_eq_cons (m : Int) (hm : 0 ≤ m) :
    intRangeDown m = m :: intRangeDown (m - 1) := by
  unfold intRangeDown
  rw [if_pos hm, List.range_succ, List.reverse_append, List.reverse_singleton,
    List.singleton_append, List.map_cons]
  have h4 : Int.ofNat m.toNat = m := by
    rw [Int.ofNat_eq_natCast]
    omega
  rw [h4]
  by_cases h2 : 0 ≤ m - 1
  · rw [if_pos h2]
    have h3 : (m - 1).toNat + 1 = m.toNat := by omega
    rw [h3]
  · have hm0 : m = 0 := by omega
    subst hm0
    rw [if_neg h2]
    simp

lemma recordIfBetter_eq_or (q ct : Int) (cur : PackMap) (best : Best) :
    recordIfBetter q ct cur best = best ∨
      recordIfBetter q ct cur best = ⟨cur, ct, ct - q⟩ := by
  simp only [recordIfBetter]
  split
  · right; rfl
  · left; rfl

lemma recordIfBetter_records (q ct : Int) (cur : PackMap) (best : Best)
    (h : ct - q < best.bestOverage) :
    recordIfBetter q ct cur best = ⟨cur, ct, ct - q⟩ := by
  simp only [recordIfBetter]
  rw [if_pos (Or.inl h)]

/-- Composing "either unchanged or recorded with total ≥ q" steps. -/
lemma best_chain (q : Int) (b0 b1 b2 : Best)
    (h01 : b1 = b0 ∨ q ≤ b1.bestTotal) (h12 : b2 = b1 ∨ q ≤ b2.bestTotal) :
    b2 = b0 ∨ q ≤ b2.bestTotal := by
  rcases h12 with h | h
  · rcases h01 with h' | h'
    · left; rw [h, h']
    · right; rw [h]; exact h'
  · right; exact h

/-- The inner fill loop either leaves `best` untouched or leaves a best
whose total is at least the order quantity: every candidate it offers has
`currentTotal ≥ orderQuantity`, because the first non-skipped fill already
covers the whole `remaining` and later fills only add. -/
lemma calcInnerLoop_best (q size remaining : Int) (hrem : 0 < remaining) :
    ∀ (ts : List Int) (cur : PackMap) (ct : Int) (best : Best),
      (∀ t ∈ ts, 0 < t) →
      (ct = q - remaining ∨ q ≤ ct) →
      (calcInnerLoop q size remaining ts (cur, ct, best)).2.2 = best ∨
        q ≤ (calcInnerLoop q size remaining ts (cur, ct, best)).2.2.bestTotal := by
  intro ts
  induction ts with
  | nil =>
    intro cur ct best _ _
    left; rfl
  | cons t rest ih =>
    intro cur ct best hpos hct
    simp only [calcInnerLoop]
    split
    · exact ih cur ct best (fun x hx => hpos x (List.mem_cons_of_mem _ hx)) hct
    · have htpos : 0 < t := hpos t (List.mem_cons_self _ _)
      have hfill : remaining ≤ goCeilDiv remaining t * t := goCeilDiv_lower _ _ hrem htpos
      have hct2 : q ≤ ct + goCeilDiv remaining t * t := by
        rcases hct with h | h
        · omega
        · omega
      have hrest : ∀ x ∈ rest, 0 < x := fun x hx => hpos x (List.mem_cons_of_mem _ hx)
      have h12 := ih (mapSet cur t (goCeilDiv remaining t)) (ct + goCeilDiv remaining t * t)
        (recordIfBetter q (ct + goCeilDiv remaining t * t)
          (mapSet cur t (goCeilDiv remaining t)) best) hrest (Or.inr hct2)
      have h01 : recordIfBetter q (ct + goCeilDiv remaining t * t)
          (mapSet cur t (goCeilDiv remaining t)) best = best ∨
          q ≤ (recordIfBetter q (ct + goCeilDiv remaining t * t)
            (mapSet cur t (goCeilDiv remaining t)) best).bestTotal := by
        rcases recordIfBetter_eq_or q (ct + goCeilDiv remaining t * t)
            (mapSet cur t (goCeilDiv remaining t)) best with hb | hb
        · left; exact hb
        · right; rw [hb]; exact hct2
      exact best_chain q _ _ _ h01 h12

/-- The packs loop either leaves `best` untouched or leaves a best whose
total is at least the order quantity. -/
lemma calcPacksLoop_best (sizesAll : List Int) (q size : Int)
    (hposAll : ∀ t ∈ sizesAll, 0 < t) :
    ∀ (qs : List Int) (cur : PackMap) (best : Best),
      (calcPacksLoop sizesAll q size qs (cur, best)).2 = best ∨
        q ≤ (calcPacksLoop sizesAll q size qs (cur, best)).2.bestTotal := by
  intro qs
  induction qs with
  | nil =>
    intro cur best
    left; rfl
  | cons packs rest ih =>
    intro cur best
    simp only [calcPacksLoop]
    split
    · next hrem =>
      have h12 := ih (mapSet cur size packs)
        (recordIfBetter q (packs * size) (mapSet cur size packs) best)
      have h01 : recordIfBetter q (packs * size) (mapSet cur size packs) best = best ∨
          q ≤ (recordIfBetter q (packs * size) (mapSet cur size packs) best).bestTotal := by
        rcases recordIfBetter_eq_or q (packs * size) (mapSet cur size packs) best with hb | hb
        · left; exact hb
        · right; rw [hb]; show q ≤ packs * size; omega
      exact best_chain q _ _ _ h01 h12
    · next hrem =>
      have hrpos : 0 < q - packs * size := by omega
      have hinner := calcInnerLoop_best q size (q - packs * size) hrpos sizesAll
        (mapSet cur size packs) (packs * size) best hposAll (Or.inl (by ring))
      exact best_chain q _ _ _ hinner (ih _ _)

/-- Starting from a state whose `bestOverage` is the full order quantity
(the initial state), the packs loop for a positive size `s ≤ q` records its
very first candidate `maxPacks × s`, whose total is ≥ q and whose overage
is < s ≤ q. -/
lemma calcPacksLoop_init (sizesAll : List Int) (q size : Int)
    (hposAll : ∀ t ∈ sizesAll, 0 < t) (hq : 0 < q) (hs : 0 < size) (hle : size ≤ q)
    (cur : PackMap) (best : Best) (hover : best.bestOverage = q) :
    q ≤ (calcPacksLoop sizesAll q size (intRangeDown (goCeilDiv q size))
        (cur, best)).2.bestTotal := by
  have hm : 0 < goCeilDiv q size := goCeilDiv_pos q size hq hs
  have hct : q ≤ goCeilDiv q size * size := goCeilDiv_lower q size hq hs
  have hup : goCeilDiv q size * size < q + size := goCeilDiv_upper q size hq hs
  rw [intRangeDown_eq_cons _ (le_of_lt hm)]
  simp only [calcPacksLoop]
  rw [if_pos (show q - goCeilDiv q size * size ≤ 0 by omega)]
  rw [recordIfBetter_records q _ _ best (by rw [hover]; omega)]
  rcases calcPacksLoop_best sizesAll q size hposAll (intRangeDown (goCeilDiv q size - 1))
      (mapSet cur size (goCeilDiv q size))
      ⟨mapSet cur size (goCeilDiv q size), goCeilDiv q size * size,
        goCeilDiv q size * size - q⟩ with h | h
  · rw [h]
    exact hct
  · exact h

/-- Through the outer loop, the best state is either still the untouched
initial state (possible only while no visited size was ≤ q) or a recorded
candidate with total ≥ q; since some size in the visited list is ≤ q, the
final state is recorded. -/
lemma calcOuterLoop_good (sizesAll : List Int) (q : Int)
    (hposAll : ∀ t ∈ sizesAll, 0 < t) (hq : 0 < q) :
    ∀ (iter : List Int) (best : Best),
      (∀ t ∈ iter, 0 < t) →
      ((best.bestOverage = q ∧ ∃ s ∈ iter, s ≤ q) ∨ q ≤ best.bestTotal) →
      q ≤ (calcOuterLoop sizesAll q iter best).bestTotal := by
  intro iter
  induction iter with
  | nil =>
    intro best _ hinv
    rcases hinv with ⟨_, s, hs, _⟩ | h
    · exact absurd hs (List.not_mem_nil s)
    · exact h
  | cons s rest ih =>
    intro best hpos hinv
    simp only [calcOuterLoop]
    have hspos : 0 < s := hpos s (List.mem_cons_self _ _)
    have hrest : ∀ x ∈ rest, 0 < x := fun x hx => hpos x (List.mem_cons_of_mem _ hx)
    rcases hinv with ⟨hover, s', hs', hsle⟩ | hgood
    · by_cases hsq : s ≤ q
      · have h1 := calcPacksLoop_init sizesAll q s hposAll hq hspos hsq mapEmpty best hover
        exact ih _ hrest (Or.inr h1)
      · have hs'rest : s' ∈ rest := by
          rcases List.mem_cons.mp hs' with h | h
          · subst h; exact absurd hsle hsq
          · exact h
        rcases calcPacksLoop_best sizesAll q s hposAll (intRangeDown (goCeilDiv q s))
            mapEmpty best with h2 | h2
        · refine ih _ hrest (Or.inl ⟨?_, s', hs'rest, hsle⟩)
          rw [h2]; exact hover
        · exact ih _ hrest (Or.inr h2)
    · rcases calcPacksLoop_best sizesAll q s hposAll (intRangeDown (goCeilDiv q s))
          mapEmpty best with h2 | h2
      · refine ih _ hrest (Or.inr ?_)
        rw [h2]; exact hgood
      · exact ih _ hrest (Or.inr h2)

/-- Main lemma for C1: `CalculatePacks` on a positive quantity and a non-empty catalog of
positive sizes always succeeds with a total ≥ the quantity. -/
lemma calculatePacks_ok (store : Option StoreFn) (sizes : List Int) (q : Int)
    (hq : 0 < q) (hne : sizes ≠ []) (hpos : ∀ s ∈ sizes, 0 < s) :
    ∃ m t, calculatePacks store sizes q = (some m, t, none) ∧ q ≤ t := by
  unfold calculatePacks
  rw [if_neg (by omega)]
  cases sizes with
  | nil => exact absurd rfl hne
  | cons p ps =>
    dsimp only
    split
    · next hlt =>
      exact ⟨_, _, rfl, le_of_lt hlt⟩
    · next hlt =>
      refine ⟨_, _, rfl, ?_⟩
      apply calcOuterLoop_good (p :: ps) q hpos hq (p :: ps) _ hpos
      exact Or.inl ⟨rfl, (p :: ps).getLast (by simp), List.getLast_mem _, not_lt.mp hlt⟩

/-- Claim C1: for every quantity > 0 and every non-empty catalog of
positive pack sizes, `CalculatePacks` returns without error with a Total
that is at least the requested quantity — the allocator never
under-fulfils. -/
theorem claimC1_total_never_underfulfils (store : Option StoreFn)
    (configSizes : List Int) (q : Int) (hq : 0 < q) (hne : configSizes ≠ [])
    (hpos : ∀ s ∈ configSizes, 0 < s) :
    ∃ m t, calculatePacks store (newAllocator configSizes) q = (some m, t, none) ∧
      q ≤ t := by
  have hperm : (newAllocator configSizes).Perm configSizes :=
    List.perm_insertionSort _ _
  apply calculatePacks_ok
  · exact hq
  · intro h
    rw [h] at hperm
    exact hne (hperm.symm.eq_nil)
  · intro s hs
    exact hpos s (hperm.mem_iff.mp hs)

/-- Witness for C1: catalog `[2]`, quantity 3. -/
theorem claimC1_witness :
    (0 : Int) < 3 ∧ ([2] : List Int) ≠ [] ∧ (∀ s ∈ ([2] : List Int), 0 < s) ∧
    ∃ m t, calculatePacks none (newAllocator [2]) 3 = (some m, t, none) ∧ 3 ≤ t :=
  ⟨by decide, by decide, by decide,
    claimC1_total_never_underfulfils none [2] 3 (by decide) (by decide) (by decide)⟩
